import Mathlib

/-!
# Verification of the skeeter-deleter core (src/skeeter_deleter.py)

Shallow embedding of the archive-decoding / self-like-correlation /
age-filter / deletion logic of `skeeter_deleter.py`, together with
theorems settling the frozen claims about it.

Modelling conventions:
* Decoded DAG-CBOR blocks (Python values) are modelled by the inductive
  `Val`: Python `None`, strings, integers, CID objects, dicts with string
  keys, and lists.  A CID object is modelled as `Val.cid n` carrying the
  content hash `n : Nat`; `CID.decode` is modelled as succeeding exactly
  on such encoded-CID values and yielding the hash.
* Python exceptions (`KeyError`, `TypeError`, `httpx.HTTPStatusError`, ...)
  are modelled by the error type `PyErr`; fallible code returns
  `Except PyErr _`.
* `datetime` objects are modelled by `DateTime` (proleptic Gregorian
  calendar exactly as CPython's `datetime`, with an optional fixed UTC
  offset in seconds); `datetime.fromisoformat` is modelled by `fromiso`.
* The external collaborators (`client.get_posts`, `client.delete_post`,
  `client.unrepost`) are parameters of the functions that call them.
* Logging is modelled where a claim speaks about it: the batch loop and
  `remove` return the list of error-log messages they emit.
-/

/-- Python exception kinds relevant to the embedded code. -/
inductive PyErr where
  | keyError
  | typeError
  | valueError
  | httpStatus
  | other
  deriving DecidableEq, Repr

/-- A decoded Python value (DAG-CBOR block or a field of one):
`None`, `str`, `int`, a CID object (carrying its hash), a dict with
string keys, or a list. -/
inductive Val where
  | pynone
  | str (s : String)
  | num (n : Int)
  | cid (c : Nat)
  | dict (fs : List (String × Val))
  | list (es : List Val)

mutual
/-- Python `repr` of a `Val`, mirroring `repr` of the corresponding
Python value (dict/list syntax, quoted strings, `None`). -/
def pyRepr : Val → String
  | .pynone => "None"
  | .str s => "\x27" ++ s ++ "\x27"
  | .num n => toString n
  | .cid c => "CID(" ++ toString c ++ ")"
  | .dict fs => "\x7b" ++ pyReprFields fs ++ "\x7d"
  | .list es => "[" ++ pyReprElems es ++ "]"

/-- Rendering of the comma-separated `key: value` items of a dict. -/
def pyReprFields : List (String × Val) → String
  | [] => ""
  | [(k, v)] => "\x27" ++ k ++ "\x27: " ++ pyRepr v
  | (k, v) :: rest => "\x27" ++ k ++ "\x27: " ++ pyRepr v ++ ", " ++ pyReprFields rest

/-- Rendering of the comma-separated items of a list. -/
def pyReprElems : List Val → String
  | [] => ""
  | [v] => pyRepr v
  | v :: rest => pyRepr v ++ ", " ++ pyReprElems rest
end

/-- Python `str` of a `Val`: like `repr` except a top-level string is
rendered without quotes. -/
def pyStr : Val → String
  | .str s => s
  | v => pyRepr v

/-- Python `needle in hay` for strings: substring containment. -/
def strContains (hay needle : String) : Bool :=
  hay.toList.tails.any (fun t => needle.toList.isPrefixOf t)

/-- Python truthiness of a value (`bool(x)`): `None`, `0`, empty
strings/dicts/lists are falsy; CID objects are truthy. -/
def pyTruthy : Val → Bool
  | .pynone => false
  | .str s => !(s == "")
  | .num n => !(n == 0)
  | .cid _ => true
  | .dict fs => !fs.isEmpty
  | .list es => !es.isEmpty

/-- Python `k in v` for a string `k`: key containment for dicts,
substring test for strings, element equality for lists; `TypeError`
for `None`, ints and CID objects. -/
def pyInStr (k : String) : Val → Except PyErr Bool
  | .dict fs => .ok (fs.any (fun kv => kv.1 == k))
  | .str s => .ok (strContains s k)
  | .list es => .ok (es.any (fun e => match e with
      | .str s => s == k
      | _ => false))
  | _ => .error .typeError

/-- Python `v[k]` for a string key `k`: dict lookup (`KeyError` when the
key is missing), `TypeError` on every non-dict value. -/
def getItem (v : Val) (k : String) : Except PyErr Val :=
  match v with
  | .dict fs =>
    match fs.lookup k with
    | some w => .ok w
    | none => .error .keyError
  | _ => .error .typeError

/-- Python `v[i]` for an integer index on a list (`TypeError` on
non-lists, `IndexError`-style failure folded into `PyErr.other`). -/
def getIndex (v : Val) (i : Nat) : Except PyErr Val :=
  match v with
  | .list es =>
    match es.get? i with
    | some w => .ok w
    | none => .error .other
  | _ => .error .typeError

/-- Python `len(v)`: length of strings, dicts and lists, `TypeError`
otherwise. -/
def pyLen : Val → Except PyErr Nat
  | .str s => .ok s.length
  | .dict fs => .ok fs.length
  | .list es => .ok es.length
  | _ => .error .typeError

/-- Model of `CID.decode` applied to the value of a `v` field: succeeds exactly on
an encoded-CID value (modelled by `Val.cid`) and yields the hash. -/
def cidDecode : Val → Except PyErr Nat
  | .cid c => .ok c
  | _ => .error .valueError

/-- The decoded archive: `CAR.from_bytes(repo).blocks`, a mapping from
content hash to decoded block, with its iteration order. -/
structure Archive where
  blocks : List (Nat × Val)

/-- Lookup `archive.blocks.get(h)`. -/
def Archive.get (a : Archive) (h : Nat) : Option Val :=
  a.blocks.lookup h

/-- Lookup `archive.blocks.get(h)` as a Python value (`None` when absent). -/
def Archive.getVal (a : Archive) (h : Nat) : Val :=
  match a.get h with
  | some b => b
  | none => .pynone

/-- The comprehension `[archive.blocks.get(cid) for cid in archive.blocks]`: the blocks in
iteration order (dict keys are unique, so this is the value list). -/
def Archive.values (a : Archive) : List Val :=
  a.blocks.map (fun kv => kv.2)

/-- Monadic map over `Except`, mirroring Python's eager `list(map(f, xs))`
where `f` may raise: the first exception propagates. -/
def emap {α β : Type} (f : α → Except PyErr β) : List α → Except PyErr (List β)
  | [] => .ok []
  | x :: xs => do
    let y ← f x
    let ys ← emap f xs
    .ok (y :: ys)

/-- Filtering over an `Except`-valued predicate, mirroring Python's
`list(filter(p, xs))` where `p` may raise: the first exception
propagates. -/
def efilter {α : Type} (p : α → Except PyErr Bool) : List α → Except PyErr (List α)
  | [] => .ok []
  | x :: xs => do
    let b ← p x
    let ys ← efilter p xs
    .ok (if b then x :: ys else ys)

/-! ## datetime model

CPython `datetime` objects: proleptic Gregorian calendar, years 1..9999,
microsecond resolution, optionally carrying a fixed UTC offset
(`tzinfo`), here in seconds. -/

/-- A Python `datetime.datetime` value.  `tz` is `none` for a naive
datetime, `some off` for an aware one with fixed UTC offset `off`
seconds. -/
structure DateTime where
  year : Nat
  month : Nat
  day : Nat
  hour : Nat
  minute : Nat
  second : Nat
  micro : Nat
  tz : Option Int
  deriving DecidableEq, Repr

/-- Gregorian leap-year test, as in CPython's `datetime`. -/
def isLeap (y : Nat) : Bool :=
  y % 4 == 0 && (y % 100 != 0 || y % 400 == 0)

/-- Days in a month of a given year, as in CPython's `datetime`. -/
def daysInMonth (y m : Nat) : Nat :=
  if m == 2 then (if isLeap y then 29 else 28)
  else if m == 4 || m == 6 || m == 9 || m == 11 then 30
  else 31

/-- Days in the whole years before year `y` (CPython `_days_before_year`). -/
def daysBeforeYear (y : Nat) : Nat :=
  (y - 1) * 365 + (y - 1) / 4 - (y - 1) / 100 + (y - 1) / 400

/-- Days in the months of year `y` strictly before month `m`
(CPython `_days_before_month`). -/
def daysBeforeMonth (y m : Nat) : Nat :=
  (List.range m).foldl (fun acc k => if 1 ≤ k then acc + daysInMonth y k else acc) 0

/-- Ordinal day number of a calendar date (CPython `_ymd2ord`:
0001-01-01 is day 1). -/
def ymdToOrdinal (y m d : Nat) : Nat :=
  daysBeforeYear y + daysBeforeMonth y m + d

/-- The instant of a `datetime` in microseconds on the UTC timeline,
with a naive datetime (no `tzinfo`) taken at face value (offset 0).
Subtraction of two aware datetimes in Python compares exactly these
instants. -/
def DateTime.epochMicroUTC (dt : DateTime) : Int :=
  ((ymdToOrdinal dt.year dt.month dt.day : Int) * 86400
    + (dt.hour : Int) * 3600 + (dt.minute : Int) * 60 + (dt.second : Int)
    - (dt.tz.getD 0)) * 1000000 + (dt.micro : Int)

/-- The step `created_dt.replace(tzinfo=timezone.utc)` when `created_dt.tzinfo is
None` (line 139-140): naive datetimes are reinterpreted as UTC. -/
def DateTime.forceUTC (dt : DateTime) : DateTime :=
  if dt.tz.isNone then { dt with tz := some 0 } else dt

/-! ## `datetime.fromisoformat` model

A parser for the ISO-8601 forms relevant here:
`YYYY-MM-DD[<sep>HH[:MM[:SS[.f{1..6}]]][±HH:MM[:SS]]]` with zero-padded
numeric fields, any single date/time separator character, and full
range-validation (month 1..12, day bounded by the month length, hour
≤ 23, minute/second ≤ 59, year ≥ 1, offset fields valid).  Any other
input yields `none` (Python raises `ValueError`). -/

/-- Value of a decimal digit, `none` on a non-digit. -/
def digitVal (c : Char) : Option Nat :=
  if c.isDigit then some (c.toNat - 48) else none

/-- Parse exactly `n` decimal digits from the front of the input,
returning their value and the rest. -/
def parseDigits : Nat → List Char → Option (Nat × List Char)
  | 0, cs => some (0, cs)
  | _ + 1, [] => none
  | n + 1, c :: cs => do
    let d ← digitVal c
    let (v, rest) ← parseDigits n cs
    some (d * 10 ^ n + v, rest)

/-- Consume an expected literal character. -/
def expectChar (c : Char) : List Char → Option (List Char)
  | [] => none
  | x :: xs => if x == c then some xs else none

/-- Parse a fractional-second suffix of 1 to 6 digits (after the `.`),
scaled to microseconds. -/
def parseFraction (cs : List Char) : Option (Nat × List Char) :=
  let digs := cs.takeWhile (fun c => c.isDigit)
  let rest := cs.dropWhile (fun c => c.isDigit)
  if digs.length < 1 || 6 < digs.length then none
  else do
    let v ← digs.foldlM (fun acc c => do pure (acc * 10 + (← digitVal c))) 0
    some (v * 10 ^ (6 - digs.length), rest)

/-- Parse the `HH:MM[:SS]` body of a UTC offset, in seconds. -/
def parseOffsetBody (cs : List Char) : Option (Nat × List Char) := do
  let (oh, r1) ← parseDigits 2 cs
  let r2 ← expectChar ':' r1
  let (om, r3) ← parseDigits 2 r2
  if 23 < oh || 59 < om then none
  else
    match expectChar ':' r3 with
    | none => some (oh * 3600 + om * 60, r3)
    | some r4 => do
      let (os, r5) ← parseDigits 2 r4
      if 59 < os then none else some (oh * 3600 + om * 60 + os, r5)

/-- Parse the time-of-day part `HH[:MM[:SS[.ffffff]]]` followed by an
optional UTC offset; returns hour, minute, second, microsecond, offset. -/
def parseTimePart (cs : List Char) : Option (Nat × Nat × Nat × Nat × Option Int) := do
  let (h, r1) ← parseDigits 2 cs
  if 23 < h then none
  else do
    let (mi, s, us, r4) ← (do
      match expectChar ':' r1 with
      | none => some (0, 0, 0, r1)
      | some r2 => do
        let (mi, r3) ← parseDigits 2 r2
        if 59 < mi then none
        else
          match expectChar ':' r3 with
          | none => some (mi, 0, 0, r3)
          | some r4 => do
            let (s, r5) ← parseDigits 2 r4
            if 59 < s then none
            else
              match expectChar '.' r5 with
              | none => some (mi, s, 0, r5)
              | some r6 => do
                let (us, r7) ← parseFraction r6
                some (mi, s, us, r7))
    match r4 with
    | [] => some (h, mi, s, us, none)
    | '+' :: r5 => do
      let (off, r6) ← parseOffsetBody r5
      if r6.isEmpty then some (h, mi, s, us, some (off : Int)) else none
    | '-' :: r5 => do
      let (off, r6) ← parseOffsetBody r5
      if r6.isEmpty then some (h, mi, s, us, some (-(off : Int))) else none
    | _ => none

/-- Model of `datetime.fromisoformat` on a character list. -/
def fromisoChars (cs : List Char) : Option DateTime := do
  let (y, r1) ← parseDigits 4 cs
  let r2 ← expectChar '-' r1
  let (m, r3) ← parseDigits 2 r2
  let r4 ← expectChar '-' r3
  let (d, r5) ← parseDigits 2 r4
  if y < 1 || m < 1 || 12 < m || d < 1 || daysInMonth y m < d then none
  else
    match r5 with
    | [] => some ⟨y, m, d, 0, 0, 0, 0, none⟩
    | _ :: r6 => do
      let (h, mi, s, us, off) ← parseTimePart r6
      some ⟨y, m, d, h, mi, s, us, off⟩

/-- Model of `datetime.fromisoformat` on a string. -/
def fromiso (s : String) : Option DateTime :=
  fromisoChars s.toList

/-! ## Posts and the age filter (`_is_older_than_days`, lines 100-142) -/

/-- A creation-timestamp value as found on a post record: an ISO string,
an already-structured `datetime`, or a value of some unexpected type. -/
inductive CreatedVal where
  | str (s : String)
  | dt (d : DateTime)
  | other
  deriving DecidableEq, Repr

/-- The record of a fetched post, with the two attribute-name conventions
the code probes (`created_at`, `createdAt`); `none` models an absent or
`None`-valued attribute. -/
structure PostRecord where
  created_at : Option CreatedVal
  createdAt : Option CreatedVal
  deriving DecidableEq, Repr

/-- A fetched post (`models.AppBskyFeedDefs.PostView` /  `PostQualifier`):
URI, author DID, record, and the viewer-context repost reference. -/
structure Post where
  uri : String
  author_did : String
  record : PostRecord
  viewer_repost : Option String
  deriving DecidableEq, Repr

/-- Python truthiness of an optional timestamp value: `None` and the
empty string are falsy (`datetime` objects are always truthy). -/
def createdTruthy : Option CreatedVal → Bool
  | none => false
  | some (.str s) => !(s == "")
  | some _ => true

/-- Python `a or b` on optional timestamp values: yields `b` whenever `a`
is falsy (including `a` an empty string). -/
def pyOrCreated (a b : Option CreatedVal) : Option CreatedVal :=
  if createdTruthy a then a else b

/-- Lines 106-118: locate the creation timestamp on the record, trying
`created_at` then `createdAt` (`getattr(...) or getattr(...)`).  The
subsequent dict-style fallback (`post.record.get(...)`) raises
`AttributeError` on a record object and is swallowed by the enclosing
`except`, contributing nothing. -/
def createdOf (r : PostRecord) : Option CreatedVal :=
  pyOrCreated r.created_at r.createdAt

/-- The test `created.endswith("Z")` on the character list of the string. -/
def endsWithZ (cs : List Char) : Bool :=
  match cs.getLast? with
  | some c => c == 'Z'
  | none => false

/-- The step `created.replace("Z", "+00:00")`: every `Z` is replaced. -/
def zReplace : List Char → List Char
  | [] => []
  | c :: cs => if c == 'Z' then '+' :: '0' :: '0' :: ':' :: '0' :: '0' :: zReplace cs
               else c :: zReplace cs

/-- Lines 124-136: parse the located timestamp value; `none` models the
`return False` paths (unparseable string, unexpected type). -/
def parseCreated : CreatedVal → Option DateTime
  | .str s =>
    let cs := s.toList
    if endsWithZ cs then fromisoChars (zReplace cs) else fromisoChars cs
  | .dt d => some d
  | .other => none

/-- Microseconds in `timedelta(days=1)`. -/
def microPerDay : Int := 86400000000

/-- Model of `SkeeterDeleter._is_older_than_days(post, days)` (lines 100-142),
with `now` the value of `datetime.now(timezone.utc)` as an instant in
microseconds. -/
def is_older_than_days (now : Int) (post : Post) (days : Int) : Bool :=
  match createdOf post.record with
  | none => false
  | some created =>
    match parseCreated created with
    | none => false
    | some created_dt =>
      decide (now - created_dt.forceUTC.epochMicroUTC > days * microPerDay)

/-! ## Archive normalization and the self-like correlator
(`extract_feed_item` lines 88-98, `gather_self_liked_posts` lines
144-177) -/

/-- The like-record type marker searched for in each block's `str`. -/
def likeMarker : String := "app.bsky.feed.like"

/-- Model of `SkeeterDeleter.extract_feed_item(archive, block)` (lines 88-98).
A raised exception (e.g. `KeyError` from `block["e"][0]["v"]`) is an
`Except.error`; the dangling-reference case returns Python `None`
(`Except.ok Val.pynone`). -/
def extract_feed_item (a : Archive) (block : Val) : Except PyErr Val := do
  if ← pyInStr "$type" block then
    .ok block
  else
    let hasE ← pyInStr "e" block
    if hasE then do
      let e ← getItem block "e"
      let n ← pyLen e
      if n > 0 then do
        let first ← getIndex e 0
        let v ← getItem first "v"
        let h ← cidDecode v
        .ok (a.getVal h)
      else
        .ok block
    else
      .ok block

/-- Lines 156-158: every block of the archive whose `str` contains the
like-record marker, normalized through `extract_feed_item`. -/
def likesOf (a : Archive) : Except PyErr (List Val) :=
  emap (extract_feed_item a) ((a.values).filter (fun b => strContains (pyStr b) likeMarker))

/-- The predicate of line 162: `self.client.me.did in x["subject"]["uri"]`. -/
def subjectUriHasDid (did : String) (x : Val) : Except PyErr Bool := do
  let subj ← getItem x "subject"
  let uri ← getItem subj "uri"
  pyInStr did uri

/-- The predicate of line 161: `archive.blocks.get(x["subject"]["cid"])`
used as a filter condition, i.e. the truthiness of the lookup result.
A non-CID `cid` value that is hashable simply misses the lookup
(falsy `None`); an unhashable one raises `TypeError`. -/
def subjectCidPresent (a : Archive) (x : Val) : Except PyErr Bool := do
  let subj ← getItem x "subject"
  let c ← getItem subj "cid"
  match c with
  | .cid h => .ok (pyTruthy (a.getVal h))
  | .dict _ => .error .typeError
  | .list _ => .error .typeError
  | _ => .ok false

/-- Lines 160-162: the like records kept by the correlator — subject URI
contains the account DID, and the subject-CID lookup is truthy. -/
def selfLikeRecords (a : Archive) (did : String) (likes : List Val) :
    Except PyErr (List Val) := do
  let inner ← efilter (subjectUriHasDid did) likes
  efilter (subjectCidPresent a) inner

/-- Model of `SkeeterDeleter.chunker(seq, size)` (lines 81-86): the slices
`seq[pos:pos+size]` for `pos in range(0, len(seq), size)`. -/
def chunker {α : Type} (seq : List α) (size : Nat) : List (List α) :=
  (List.range' 0 ((seq.length + size - 1) / size) size).map
    (fun pos => (seq.drop pos).take size)

/-- The access `x["subject"]["uri"]` for one like record. -/
def subjectUriOf (x : Val) : Except PyErr Val := do
  getItem (← getItem x "subject") "uri"

/-- The comprehension `[x["subject"]["uri"] for x in batch]` (line 167). -/
def batchUris (batch : List Val) : Except PyErr (List Val) :=
  emap subjectUriOf batch

/-- One iteration's fetch: build the URI list and call the external
`client.get_posts` collaborator. -/
def fetchBatch (fetcher : List Val → Except PyErr (List Post)) (batch : List Val) :
    Except PyErr (List Post) := do
  fetcher (← batchUris batch)

/-- Line 171's comprehension filter: authored by me and older than 3
days. -/
def qualify (me : String) (now : Int) (posts : List Post) : List Post :=
  posts.filter (fun p => p.author_did == me && is_older_than_days now p 3)

/-- The error-log line emitted by the `except` clauses of lines 173-176. -/
def fetchErrorLog (e : PyErr) : String :=
  match e with
  | .httpStatus => "An HTTP error occured while fetching self-liked posts"
  | _ => "An error occured while fetching self-liked posts"

/-- The batch loop of lines 164-177: accumulate qualifying posts batch by
batch; a batch whose fetch raises contributes no posts and one error-log
line, and the loop continues. -/
def processBatches (fetcher : List Val → Except PyErr (List Post)) (me : String)
    (now : Int) (batches : List (List Val)) : List Post × List String :=
  batches.foldl
    (fun acc batch =>
      match fetchBatch fetcher batch with
      | .ok posts => (acc.1 ++ qualify me now posts, acc.2)
      | .error e => (acc.1, acc.2 ++ [fetchErrorLog e]))
    ([], [])

/-- Model of `SkeeterDeleter.gather_self_liked_posts` (lines 144-177), with the
decoded archive, the account DID, the `get_posts` collaborator and the
current instant as parameters.  Returns the `posts_to_delete` list and
the batch-level error log; exceptions raised outside the `try` of the
batch loop (lines 154-162) propagate as `Except.error`. -/
def gather_self_liked_posts (a : Archive) (did : String)
    (fetcher : List Val → Except PyErr (List Post)) (now : Int) :
    Except PyErr (List Post × List String) := do
  let likes ← likesOf a
  let slr ← selfLikeRecords a did likes
  .ok (processBatches fetcher did now (chunker slr 25))

/-! ## Deletion executor (`PostQualifier.remove`, lines 36-55) -/

/-- Observable outcome of one `remove` call: the collaborator calls made
and the error-log lines emitted.  `remove` always returns (never
propagates an exception), so the outcome is a plain value. -/
structure RemoveOutcome where
  unrepostCalls : List (Option String)
  deleteCalls : List String
  errorLogs : List String
  deriving DecidableEq, Repr

/-- Model of `PostQualifier.remove` (lines 36-55), with the `client.unrepost` and
`client.delete_post` collaborators as parameters.  Each branch catches
`httpx.HTTPStatusError` and generic `Exception` and only logs. -/
def removePost (unrepostF : Option String → Except PyErr Unit)
    (deletePostF : String → Except PyErr Unit)
    (me : String) (p : Post) : RemoveOutcome :=
  if p.author_did ≠ me then
    { unrepostCalls := [p.viewer_repost]
      deleteCalls := []
      errorLogs :=
        match unrepostF p.viewer_repost with
        | .ok _ => []
        | .error .httpStatus => ["HTTP error occurred during unreposting"]
        | .error _ => ["An error occurred during unreposting"] }
  else
    { unrepostCalls := []
      deleteCalls := [p.uri]
      errorLogs :=
        match deletePostF p.uri with
        | .ok _ => []
        | .error .httpStatus => ["HTTP error occurred during deletion"]
        | .error _ => ["An error occurred during deletion"] }

/-! ## Helper lemmas -/

/-- The boolean decoded from an `Except`-valued predicate (errors count
as `false`); when a surrounding `efilter` succeeded no error occurred. -/
def ebool {α : Type} (p : α → Except PyErr Bool) (x : α) : Bool :=
  match p x with
  | .ok b => b
  | .error _ => false

theorem efilter_ok_eq {α : Type} (p : α → Except PyErr Bool) :
    ∀ (l r : List α), efilter p l = .ok r → r = l.filter (ebool p) := by
  intro l
  induction l with
  | nil => intro r h; simpa [efilter] using h.symm
  | cons x xs ih =>
    intro r h
    simp only [efilter, bind, Except.bind] at h
    cases hx : p x with
    | error e => rw [hx] at h; exact absurd h (by simp)
    | ok b =>
      rw [hx] at h
      cases hys : efilter p xs with
      | error e => rw [hys] at h; exact absurd h (by simp)
      | ok ys =>
        rw [hys] at h
        simp only [Except.ok.injEq] at h
        subst h
        rw [List.filter_cons]
        have : ebool p x = b := by simp [ebool, hx]
        rw [this, ih ys hys]

theorem efilter_error_of_mem {α : Type} (p : α → Except PyErr Bool) :
    ∀ (l : List α) (x : α), x ∈ l → (∃ e, p x = .error e) →
      ∃ e, efilter p l = .error e := by
  intro l
  induction l with
  | nil => intro x hx; exact absurd hx (by simp)
  | cons y ys ih =>
    intro x hx ⟨e, he⟩
    by_cases hxy : p y = .ok true ∨ p y = .ok false
    · have hyok : ∃ b, p y = .ok b := by
        rcases hxy with h | h
        · exact ⟨true, h⟩
        · exact ⟨false, h⟩
      rcases hyok with ⟨b, hb⟩
      have hxways : x ∈ ys := by
        rcases List.mem_cons.mp hx with h | h
        · subst h; rw [he] at hb; exact absurd hb (by simp)
        · exact h
      rcases ih x hxways ⟨e, he⟩ with ⟨e2, he2⟩
      refine ⟨e2, ?_⟩
      simp only [efilter, bind, Except.bind, hb, he2]
    · have : ∃ e2, p y = .error e2 := by
        cases hpy : p y with
        | ok b => cases b <;> simp [hpy] at hxy
        | error e2 => exact ⟨e2, rfl⟩
      rcases this with ⟨e2, he2⟩
      exact ⟨e2, by simp only [efilter, bind, Except.bind, he2]⟩

theorem emap_ok_mem {α β : Type} (f : α → Except PyErr β) :
    ∀ (l : List α) (ys : List β), emap f l = .ok ys →
      ∀ y ∈ ys, ∃ x ∈ l, f x = .ok y := by
  intro l
  induction l with
  | nil =>
    intro ys h y hy
    simp only [emap, Except.ok.injEq] at h
    subst h
    exact absurd hy (by simp)
  | cons x xs ih =>
    intro ys h y hy
    simp only [emap, bind, Except.bind] at h
    cases hx : f x with
    | error e => rw [hx] at h; exact absurd h (by simp)
    | ok b =>
      rw [hx] at h
      cases hrest : emap f xs with
      | error e => rw [hrest] at h; exact absurd h (by simp)
      | ok bs =>
        rw [hrest] at h
        simp only [Except.ok.injEq] at h
        subst h
        rcases List.mem_cons.mp hy with h | h
        · exact ⟨x, by simp, by rw [hx, h]⟩
        · rcases ih bs hrest y h with ⟨x2, hx2, hfx2⟩
          exact ⟨x2, by simp [hx2], hfx2⟩

theorem range'_shift (step : Nat) :
    ∀ (n s : Nat), List.range' (s + step) n step = (List.range' s n step).map (· + step) := by
  intro n
  induction n with
  | zero => intro s; rfl
  | succ m ih =>
    intro s
    rw [List.range'_succ, List.range'_succ, List.map_cons, ← ih (s + step)]

/-- Unfolding `chunker` on a non-empty list: the first `size` elements,
then the chunks of the rest. -/
theorem chunker_cons {α : Type} (l : List α) (size : Nat) (hs : 0 < size)
    (hl : l ≠ []) :
    chunker l size = l.take size :: chunker (l.drop size) size := by
  rcases List.exists_cons_of_ne_nil hl with ⟨a, t, rfl⟩
  have hlen : (a :: t).length = t.length + 1 := by simp
  have hpos : ((a :: t).length + size - 1) / size = t.length / size + 1 := by
    rw [hlen]
    have : t.length + 1 + size - 1 = t.length + size := by omega
    rw [this, Nat.add_div_right _ hs]
  have hpos2 : (((a :: t).drop size).length + size - 1) / size = t.length / size := by
    rw [List.length_drop, hlen]
    by_cases hc : t.length + 1 ≤ size
    · have h1 : t.length + 1 - size = 0 := by omega
      rw [h1]
      have h2 : 0 + size - 1 < size := by omega
      rw [Nat.div_eq_of_lt h2, Nat.div_eq_of_lt (by omega)]
    · have h1 : t.length + 1 - size + size - 1 = (t.length - size) + size := by omega
      rw [h1, Nat.add_div_right _ hs]
      have h2 : t.length = (t.length - size) + size := by omega
      conv_rhs => rw [h2, Nat.add_div_right _ hs]
  unfold chunker
  rw [hpos, hpos2, List.range'_succ, List.map_cons]
  have hshift : List.range' (0 + size) (t.length / size) size
      = (List.range' 0 (t.length / size) size).map (· + size) :=
    range'_shift size (t.length / size) 0
  rw [hshift, List.map_map]
  congr 1
  apply List.map_congr_left
  intro pos _
  simp only [Function.comp_apply]
  rw [List.drop_drop, Nat.add_comm size pos]

/-- The chunking of the empty list is empty. -/
theorem chunker_nil {α : Type} (size : Nat) : chunker ([] : List α) size = [] := by
  unfold chunker
  cases size with
  | zero => simp
  | succ k =>
    have : ([] : List α).length + (k + 1) - 1 = k := by simp
    rw [this, Nat.div_eq_of_lt (by omega)]
    rfl

/-- A non-empty list has a non-empty chunk list. -/
theorem chunker_ne_nil {α : Type} (l : List α) (size : Nat) (hs : 0 < size)
    (hl : l ≠ []) : chunker l size ≠ [] := by
  rw [chunker_cons l size hs hl]
  simp

/-- The main `chunker` specification, by strong induction on the list
length. -/
theorem chunker_spec_aux {α : Type} (size : Nat) (hs : 0 < size) :
    ∀ (n : Nat) (l : List α), l.length ≤ n →
      (chunker l size).flatten = l
      ∧ (∀ c ∈ (chunker l size).dropLast, c.length = size)
      ∧ (∀ c ∈ chunker l size, c ≠ []) := by
  intro n
  induction n with
  | zero =>
    intro l hl
    have : l = [] := by
      cases l with
      | nil => rfl
      | cons a t => simp at hl
    subst this
    rw [chunker_nil]
    exact ⟨rfl, by simp, by simp⟩
  | succ m ih =>
    intro l hl
    by_cases hnil : l = []
    · subst hnil
      rw [chunker_nil]
      exact ⟨rfl, by simp, by simp⟩
    · rw [chunker_cons l size hs hnil]
      have hdroplen : (l.drop size).length ≤ m := by
        rw [List.length_drop]
        have : 0 < l.length := List.length_pos.mpr hnil
        omega
      rcases ih (l.drop size) hdroplen with ⟨hflat, hfull, hne⟩
      refine ⟨?_, ?_, ?_⟩
      · rw [List.flatten_cons, hflat, List.take_append_drop]
      · intro c hc
        by_cases hrest : chunker (l.drop size) size = []
        · rw [hrest] at hc
          simp at hc
        · rcases List.exists_cons_of_ne_nil hrest with ⟨c0, cs, hcons⟩
          rw [hcons] at hc
          rw [List.dropLast_cons₂] at hc
          rcases List.mem_cons.mp hc with h | h
          · subst h
            have hlong : size < l.length := by
              by_contra hcon
              push_neg at hcon
              have : l.drop size = [] := List.drop_of_length_le hcon
              rw [this, chunker_nil] at hcons
              exact absurd hcons.symm (by simp)
            rw [List.length_take]
            omega
          · rw [← hcons] at h
            exact hfull c h
      · intro c hc
        rcases List.mem_cons.mp hc with h | h
        · subst h
          intro hcon
          rcases List.take_eq_nil_iff.mp hcon with h1 | h1
          · omega
          · exact hnil h1
        · exact hne c h

/-- Batches produced by `chunker` only contain elements of the input. -/
theorem chunker_mem {α : Type} (l : List α) (size : Nat) (c : List α)
    (hc : c ∈ chunker l size) (x : α) (hx : x ∈ c) : x ∈ l := by
  unfold chunker at hc
  rcases List.mem_map.mp hc with ⟨pos, _, rfl⟩
  exact List.drop_subset pos l (List.take_subset size (l.drop pos) hx)

/-- The batch loop is a fold, expressed over any starting accumulator. -/
theorem processBatches_general (fetcher : List Val → Except PyErr (List Post))
    (me : String) (now : Int) :
    ∀ (batches : List (List Val)) (acc : List Post × List String),
      batches.foldl
        (fun acc batch =>
          match fetchBatch fetcher batch with
          | .ok posts => (acc.1 ++ qualify me now posts, acc.2)
          | .error e => (acc.1, acc.2 ++ [fetchErrorLog e]))
        acc
      = (acc.1 ++ (batches.map (fun b =>
            match fetchBatch fetcher b with
            | .ok posts => qualify me now posts
            | .error _ => [])).flatten,
         acc.2 ++ batches.filterMap (fun b =>
            match fetchBatch fetcher b with
            | .ok _ => none
            | .error e => some (fetchErrorLog e))) := by
  intro batches
  induction batches with
  | nil => intro acc; simp
  | cons b bs ih =>
    intro acc
    rw [List.foldl_cons]
    cases hb : fetchBatch fetcher b with
    | ok posts =>
      rw [ih]
      simp [List.filterMap_cons, hb]
    | error e =>
      rw [ih]
      simp [List.filterMap_cons, hb]

/-! ## Claims -/

/-- C2: for every post whose record carries a creation timestamp that
resolves to a parsed datetime `dt` (ISO string with or without trailing
`Z`, or structured datetime) and every day threshold, the age filter
returns `true` iff `now - createdAt > days` under strict inequality,
with a timezone-less timestamp interpreted as UTC (`forceUTC`) before
the comparison. -/
theorem claim_C2_age_filter_strict (now : Int) (post : Post) (days : Int)
    (c : CreatedVal) (dt : DateTime)
    (hc : createdOf post.record = some c) (hp : parseCreated c = some dt) :
    is_older_than_days now post days = true
      ↔ now - dt.forceUTC.epochMicroUTC > days * microPerDay := by
  simp [is_older_than_days, hc, hp]

/-- Witness for C2 at the concrete timestamps `2020-01-01T00:00:00Z`
(aware) and `2024-01-01T00:00:00` (naive, treated as UTC), with `now`
four days later and threshold 3 days. -/
theorem claim_C2_age_filter_strict_witness :
    (is_older_than_days ((ymdToOrdinal 2020 1 5 : Int) * 86400000000)
        ⟨"u", "d", ⟨some (.str "2020-01-01T00:00:00Z"), none⟩, none⟩ 3 = true
      ↔ ((ymdToOrdinal 2020 1 5 : Int) * 86400000000)
          - (DateTime.forceUTC ⟨2020, 1, 1, 0, 0, 0, 0, some 0⟩).epochMicroUTC
          > 3 * microPerDay)
    ∧ (is_older_than_days ((ymdToOrdinal 2024 1 5 : Int) * 86400000000)
        ⟨"u", "d", ⟨some (.str "2024-01-01T00:00:00"), none⟩, none⟩ 3 = true
      ↔ ((ymdToOrdinal 2024 1 5 : Int) * 86400000000)
          - (DateTime.forceUTC ⟨2024, 1, 1, 0, 0, 0, 0, none⟩).epochMicroUTC
          > 3 * microPerDay) :=
  ⟨claim_C2_age_filter_strict _ _ 3 _ _ rfl rfl,
   claim_C2_age_filter_strict _ _ 3 _ _ rfl rfl⟩

/-- C3: a post whose record has neither `createdAt` nor `created_at`, or
whose timestamp string fails to parse, or whose timestamp value has an
unexpected type, is never older-than-days (the filter returns
`false`). -/
theorem claim_C3_age_filter_conservative (now : Int) (post : Post) (days : Int)
    (h : (post.record.created_at = none ∧ post.record.createdAt = none)
       ∨ (∃ s, createdOf post.record = some (.str s) ∧ parseCreated (.str s) = none)
       ∨ createdOf post.record = some .other) :
    is_older_than_days now post days = false := by
  rcases h with ⟨h1, h2⟩ | ⟨s, h1, h2⟩ | h1
  · simp [is_older_than_days, createdOf, pyOrCreated, createdTruthy, h1, h2]
  · simp [is_older_than_days, h1, h2]
  · simp [is_older_than_days, h1, parseCreated]

/-- Witness for C3: missing fields, an unparseable string, and an
unexpected type each yield `false`. -/
theorem claim_C3_age_filter_conservative_witness :
    is_older_than_days 0 ⟨"u", "d", ⟨none, none⟩, none⟩ 3 = false
    ∧ is_older_than_days 0 ⟨"u", "d", ⟨some (.str "not-a-date"), none⟩, none⟩ 3 = false
    ∧ is_older_than_days 0 ⟨"u", "d", ⟨some .other, none⟩, none⟩ 3 = false :=
  ⟨claim_C3_age_filter_conservative 0 _ 3 (Or.inl ⟨rfl, rfl⟩),
   claim_C3_age_filter_conservative 0 _ 3 (Or.inr (Or.inl ⟨"not-a-date", rfl, rfl⟩)),
   claim_C3_age_filter_conservative 0 _ 3 (Or.inr (Or.inr rfl))⟩

/-- C6: the correlator partitions the surviving like records into
consecutive batches of fixed size 25 (line 165 iterates
`chunker(self_like_records, 25)`, issuing exactly one `get_posts` call
per batch); 30 like records yield exactly 2 batches, of sizes 25
and 5. -/
theorem claim_C6_batching_25 (slr : List Val) (h : slr.length = 30) :
    (chunker slr 25).length = 2
    ∧ (chunker slr 25).map List.length = [25, 5] := by
  have hc : (slr.length + 25 - 1) / 25 = 2 := by rw [h]
  have h1 : chunker slr 25 = [slr.take 25, (slr.drop 25).take 25] := by
    unfold chunker
    rw [hc, List.range'_succ, List.range'_succ]
    simp
  rw [h1]
  refine ⟨rfl, ?_⟩
  simp [List.length_take, List.length_drop, h]

/-- Witness for C6 at a concrete list of 30 like records. -/
theorem claim_C6_batching_25_witness :
    (chunker (List.replicate 30 Val.pynone) 25).length = 2
    ∧ (chunker (List.replicate 30 Val.pynone) 25).map List.length = [25, 5] :=
  claim_C6_batching_25 (List.replicate 30 Val.pynone) (by simp)

/-- C7: the batch loop never propagates an exception (it is a total
function); a batch whose fetch raises contributes zero posts and one
error-log line and processing continues, so the resulting post list is
exactly the concatenation of the qualifying posts of the successful
batches, in order. -/
theorem claim_C7_batch_failure_tolerated (fetcher : List Val → Except PyErr (List Post))
    (me : String) (now : Int) (batches : List (List Val)) :
    (processBatches fetcher me now batches).1
      = (batches.map (fun b =>
          match fetchBatch fetcher b with
          | .ok posts => qualify me now posts
          | .error _ => [])).flatten
    ∧ (processBatches fetcher me now batches).2
      = batches.filterMap (fun b =>
          match fetchBatch fetcher b with
          | .ok _ => none
          | .error e => some (fetchErrorLog e)) := by
  unfold processBatches
  rw [processBatches_general]
  simp

/-- C8: `remove` unreposts (with the viewer repost reference) exactly
when the post's author differs from the account, and otherwise deletes
by URI; collaborator errors (HTTP-status or generic) are caught and
produce exactly one error-log line, and `remove` is a total function,
so no exception propagates. -/
theorem claim_C8_remove_branches (unrepostF : Option String → Except PyErr Unit)
    (deletePostF : String → Except PyErr Unit) (me : String) (p : Post) :
    (p.author_did ≠ me →
       (removePost unrepostF deletePostF me p).unrepostCalls = [p.viewer_repost]
       ∧ (removePost unrepostF deletePostF me p).deleteCalls = []
       ∧ (unrepostF p.viewer_repost = .ok ()
            → (removePost unrepostF deletePostF me p).errorLogs = [])
       ∧ (∀ e, unrepostF p.viewer_repost = .error e
            → (removePost unrepostF deletePostF me p).errorLogs.length = 1))
    ∧ (p.author_did = me →
       (removePost unrepostF deletePostF me p).deleteCalls = [p.uri]
       ∧ (removePost unrepostF deletePostF me p).unrepostCalls = []
       ∧ (deletePostF p.uri = .ok ()
            → (removePost unrepostF deletePostF me p).errorLogs = [])
       ∧ (∀ e, deletePostF p.uri = .error e
            → (removePost unrepostF deletePostF me p).errorLogs.length = 1)) := by
  refine ⟨fun hne => ?_, fun heq => ?_⟩
  · unfold removePost
    rw [if_pos hne]
    refine ⟨rfl, rfl, fun hok => ?_, fun e he => ?_⟩
    · simp [hok]
    · rw [he]; cases e <;> rfl
  · unfold removePost
    rw [if_neg (by simp [heq])]
    refine ⟨rfl, rfl, fun hok => ?_, fun e he => ?_⟩
    · simp [hok]
    · rw [he]; cases e <;> rfl

/-- Witness for C8: a repost (author differs) with a failing unrepost
collaborator logs one error, and an authored post with a succeeding
delete collaborator logs none. -/
theorem claim_C8_remove_branches_witness :
    (removePost (fun _ => .error .httpStatus) (fun _ => .ok ()) "did:me"
        ⟨"u1", "did:other", ⟨none, none⟩, some "repref"⟩).unrepostCalls = [some "repref"]
    ∧ (removePost (fun _ => .error .httpStatus) (fun _ => .ok ()) "did:me"
        ⟨"u1", "did:other", ⟨none, none⟩, some "repref"⟩).deleteCalls = []
    ∧ (removePost (fun _ => .error .httpStatus) (fun _ => .ok ()) "did:me"
        ⟨"u1", "did:other", ⟨none, none⟩, some "repref"⟩).errorLogs.length = 1
    ∧ (removePost (fun _ => .error .httpStatus) (fun _ => .ok ()) "did:me"
        ⟨"u2", "did:me", ⟨none, none⟩, none⟩).deleteCalls = ["u2"]
    ∧ (removePost (fun _ => .error .httpStatus) (fun _ => .ok ()) "did:me"
        ⟨"u2", "did:me", ⟨none, none⟩, none⟩).unrepostCalls = []
    ∧ (removePost (fun _ => .error .httpStatus) (fun _ => .ok ()) "did:me"
        ⟨"u2", "did:me", ⟨none, none⟩, none⟩).errorLogs = [] := by
  have h1 := (claim_C8_remove_branches (fun _ => .error .httpStatus) (fun _ => .ok ())
      "did:me" ⟨"u1", "did:other", ⟨none, none⟩, some "repref"⟩).1 (by decide)
  have h2 := (claim_C8_remove_branches (fun _ => .error .httpStatus) (fun _ => .ok ())
      "did:me" ⟨"u2", "did:me", ⟨none, none⟩, none⟩).2 rfl
  exact ⟨h1.1, h1.2.1, h1.2.2.2 .httpStatus rfl, h2.1, h2.2.1, h2.2.2.1 rfl⟩

/-- C10: for every sequence and positive size, `chunker` yields
consecutive non-overlapping slices whose concatenation is the input,
all chunks except possibly the last have length exactly `size`, every
chunk (in particular the last) is non-empty, and the empty sequence
yields no chunks at all (hence zero fetch calls in the correlator). -/
theorem claim_C10_chunker_spec {α : Type} (l : List α) (size : Nat) (h : 0 < size) :
    (chunker l size).flatten = l
    ∧ (∀ c ∈ (chunker l size).dropLast, c.length = size)
    ∧ (∀ c ∈ chunker l size, c ≠ [])
    ∧ chunker ([] : List α) size = [] := by
  rcases chunker_spec_aux size h l.length l (le_refl _) with ⟨h1, h2, h3⟩
  exact ⟨h1, h2, h3, chunker_nil size⟩

/-- Witness for C10 at a concrete 5-element list with chunk size 2. -/
theorem claim_C10_chunker_spec_witness :
    (chunker [1, 2, 3, 4, 5] 2).flatten = [1, 2, 3, 4, 5]
    ∧ (∀ c ∈ (chunker [1, 2, 3, 4, 5] 2).dropLast, c.length = 2)
    ∧ (∀ c ∈ chunker [1, 2, 3, 4, 5] 2, c ≠ [])
    ∧ chunker ([] : List Nat) 2 = [] :=
  claim_C10_chunker_spec [1, 2, 3, 4, 5] 2 (by decide)

/-- If the age filter accepts a post, a creation timestamp was found and
parsed. -/
theorem is_older_implies_parse (now : Int) (p : Post) (days : Int)
    (h : is_older_than_days now p days = true) :
    ∃ c dt, createdOf p.record = some c ∧ parseCreated c = some dt := by
  unfold is_older_than_days at h
  cases hc : createdOf p.record with
  | none => rw [hc] at h; simp at h
  | some c =>
    rw [hc] at h
    cases hp : parseCreated c with
    | none => simp [hp] at h
    | some dt => exact ⟨c, dt, rfl, hp⟩

/-- A post in the batch loop's output comes from a successfully fetched
batch and passed the author/age filter. -/
theorem processBatches_mem (fetcher : List Val → Except PyErr (List Post))
    (me : String) (now : Int) (batches : List (List Val)) (p : Post)
    (hp : p ∈ (processBatches fetcher me now batches).1) :
    ∃ batch ∈ batches, ∃ posts, fetchBatch fetcher batch = .ok posts
        ∧ p ∈ qualify me now posts := by
  unfold processBatches at hp
  rw [processBatches_general] at hp
  simp only [List.nil_append] at hp
  rcases List.mem_flatten.mp hp with ⟨s, hs, hps⟩
  rcases List.mem_map.mp hs with ⟨batch, hbatch, rfl⟩
  cases hb : fetchBatch fetcher batch with
  | ok posts =>
    rw [hb] at hps
    exact ⟨batch, hbatch, posts, hb, hps⟩
  | error e =>
    rw [hb] at hps
    simp at hps

/-- A successful association-list lookup means some key matches. -/
theorem any_key_of_lookup {fs : List (String × Val)} {k : String} {w : Val}
    (h : fs.lookup k = some w) : fs.any (fun kv => kv.1 == k) = true := by
  induction fs with
  | nil => simp [List.lookup] at h
  | cons kv rest ih =>
    rw [List.lookup] at h
    by_cases hk : k == kv.1
    · have hkk : kv.1 = k := (eq_of_beq hk).symm
      simp [hkk]
    · simp only [List.any_cons]
      have h2 : List.lookup k rest = some w := by simpa [hk] using h
      simp [ih h2]

/-- C4 (amended): normalization of a dict block returns the block
unchanged when it carries a `$type` key; otherwise, when it has a
non-empty `e` list whose first element is a dict with an encoded-CID `v`
field, it returns the archive lookup at that hash (possibly `None`) —
but when that first element has no `v` field it raises `KeyError`
rather than returning the block; only a block with no `e` key, or with
an empty `e` list, falls through unchanged. -/
theorem claim_C4_extract_feed_item (a : Archive) (fs : List (String × Val)) :
    (fs.any (fun kv => kv.1 == "$type") = true →
       extract_feed_item a (Val.dict fs) = .ok (Val.dict fs))
    ∧ (fs.any (fun kv => kv.1 == "$type") = false →
       ∀ gs rest, fs.lookup "e" = some (.list (Val.dict gs :: rest)) →
         (∀ n, gs.lookup "v" = some (.cid n) →
            extract_feed_item a (Val.dict fs) = .ok (a.getVal n))
         ∧ (gs.lookup "v" = none →
            extract_feed_item a (Val.dict fs) = .error .keyError))
    ∧ (fs.any (fun kv => kv.1 == "$type") = false →
       fs.any (fun kv => kv.1 == "e") = false →
       extract_feed_item a (Val.dict fs) = .ok (Val.dict fs))
    ∧ (fs.any (fun kv => kv.1 == "$type") = false →
       fs.lookup "e" = some (.list []) →
       extract_feed_item a (Val.dict fs) = .ok (Val.dict fs)) := by
  refine ⟨fun hty => ?_, fun hty gs rest he => ⟨fun n hv => ?_, fun hv => ?_⟩,
          fun hty hne => ?_, fun hty he => ?_⟩
  · simp [extract_feed_item, pyInStr, hty, bind, Except.bind]
  · simp [extract_feed_item, pyInStr, hty, any_key_of_lookup he, getItem, he,
          pyLen, getIndex, cidDecode, hv, bind, Except.bind]
  · simp [extract_feed_item, pyInStr, hty, any_key_of_lookup he, getItem, he,
          pyLen, getIndex, cidDecode, hv, bind, Except.bind]
  · simp [extract_feed_item, pyInStr, hty, hne, bind, Except.bind]
  · simp [extract_feed_item, pyInStr, hty, any_key_of_lookup he, getItem, he,
          pyLen, bind, Except.bind]

/-- Witness for C4 at concrete blocks: a `$type` block, an indirect
block resolved through the archive, an indirect block whose first `e`
entry lacks `v` (raises `KeyError`), a block with no `e` key, and a
block with an empty `e` list. -/
theorem claim_C4_extract_feed_item_witness :
    extract_feed_item ⟨[(9, Val.dict [("x", Val.num 1)])]⟩
        (Val.dict [("$type", Val.str "app.bsky.feed.like")])
      = .ok (Val.dict [("$type", Val.str "app.bsky.feed.like")])
    ∧ extract_feed_item ⟨[(9, Val.dict [("x", Val.num 1)])]⟩
        (Val.dict [("e", Val.list [Val.dict [("v", Val.cid 9)]])])
      = .ok (Archive.getVal ⟨[(9, Val.dict [("x", Val.num 1)])]⟩ 9)
    ∧ extract_feed_item ⟨[(9, Val.dict [("x", Val.num 1)])]⟩
        (Val.dict [("e", Val.list [Val.dict [("k", Val.str "m")]])])
      = .error .keyError
    ∧ extract_feed_item ⟨[(9, Val.dict [("x", Val.num 1)])]⟩
        (Val.dict [("other", Val.num 0)])
      = .ok (Val.dict [("other", Val.num 0)])
    ∧ extract_feed_item ⟨[(9, Val.dict [("x", Val.num 1)])]⟩
        (Val.dict [("e", Val.list [])])
      = .ok (Val.dict [("e", Val.list [])]) :=
  ⟨(claim_C4_extract_feed_item ⟨[(9, Val.dict [("x", Val.num 1)])]⟩
      [("$type", Val.str "app.bsky.feed.like")]).1 rfl,
   ((claim_C4_extract_feed_item ⟨[(9, Val.dict [("x", Val.num 1)])]⟩
      [("e", Val.list [Val.dict [("v", Val.cid 9)]])]).2.1 rfl
      [("v", Val.cid 9)] [] rfl).1 9 rfl,
   ((claim_C4_extract_feed_item ⟨[(9, Val.dict [("x", Val.num 1)])]⟩
      [("e", Val.list [Val.dict [("k", Val.str "m")]])]).2.1 rfl
      [("k", Val.str "m")] [] rfl).2 rfl,
   (claim_C4_extract_feed_item ⟨[(9, Val.dict [("x", Val.num 1)])]⟩
      [("other", Val.num 0)]).2.2.1 rfl rfl,
   (claim_C4_extract_feed_item ⟨[(9, Val.dict [("x", Val.num 1)])]⟩
      [("e", Val.list [])]).2.2.2 rfl rfl⟩

/-- Counterexample to C4 as stated: a block with no `$type` and a
non-empty `e` list whose first element lacks a `v` field is NOT
returned unchanged — the code raises `KeyError` at
`block["e"][0]["v"]`. -/
theorem claim_C4_counterexample :
    pyInStr "$type" (Val.dict [("e", Val.list [Val.dict []])]) = .ok false
    ∧ pyInStr "e" (Val.dict [("e", Val.list [Val.dict []])]) = .ok true
    ∧ getItem (Val.dict []) "v" = .error .keyError
    ∧ extract_feed_item ⟨[]⟩ (Val.dict [("e", Val.list [Val.dict []])])
        = .error .keyError
    ∧ ∀ b : Val, extract_feed_item ⟨[]⟩ (Val.dict [("e", Val.list [Val.dict []])])
        ≠ .ok b := by
  refine ⟨rfl, rfl, rfl, rfl, ?_⟩
  intro b h
  rw [show extract_feed_item ⟨[]⟩ (Val.dict [("e", Val.list [Val.dict []])])
      = .error .keyError from rfl] at h
  exact Except.noConfusion h

/-- C5 (amended): when the correlator's filters raise no exception, a
like record is kept iff its subject URI contains the account DID and
the subject-CID archive lookup yields a truthy (in particular
non-empty) block.  Mere presence of the CID in the block set is not
enough: the code tests the truthiness of the looked-up block, so a CID
mapped to an empty (falsy) block is excluded. -/
theorem claim_C5_correlator_keep_iff (a : Archive) (did : String)
    (likes res : List Val) (h : selfLikeRecords a did likes = .ok res) (x : Val) :
    x ∈ res ↔ x ∈ likes ∧ ebool (subjectUriHasDid did) x = true
                        ∧ ebool (subjectCidPresent a) x = true := by
  unfold selfLikeRecords at h
  cases h1 : efilter (subjectUriHasDid did) likes with
  | error e =>
    rw [h1] at h
    exact absurd h (by simp [bind, Except.bind])
  | ok inner =>
    rw [h1] at h
    simp only [bind, Except.bind] at h
    have h2 := efilter_ok_eq _ inner res h
    have h3 := efilter_ok_eq _ likes inner h1
    rw [h2, h3, List.mem_filter, List.mem_filter]
    tauto

/-- Witness for C5 (amended) at a one-like, one-block archive whose
subject CID resolves to a truthy block: the like is kept. -/
theorem claim_C5_correlator_keep_iff_witness :
    Val.dict [("subject", Val.dict
        [("uri", Val.str "at://did:plc:me/app.bsky.feed.post/1"), ("cid", Val.cid 5)])]
      ∈ [Val.dict [("subject", Val.dict
        [("uri", Val.str "at://did:plc:me/app.bsky.feed.post/1"), ("cid", Val.cid 5)])]]
    ↔ Val.dict [("subject", Val.dict
        [("uri", Val.str "at://did:plc:me/app.bsky.feed.post/1"), ("cid", Val.cid 5)])]
      ∈ [Val.dict [("subject", Val.dict
        [("uri", Val.str "at://did:plc:me/app.bsky.feed.post/1"), ("cid", Val.cid 5)])]]
    ∧ ebool (subjectUriHasDid "did:plc:me")
        (Val.dict [("subject", Val.dict
          [("uri", Val.str "at://did:plc:me/app.bsky.feed.post/1"), ("cid", Val.cid 5)])]) = true
    ∧ ebool (subjectCidPresent ⟨[(5, Val.dict [("$type", Val.str "app.bsky.feed.post")])]⟩)
        (Val.dict [("subject", Val.dict
          [("uri", Val.str "at://did:plc:me/app.bsky.feed.post/1"), ("cid", Val.cid 5)])]) = true :=
  claim_C5_correlator_keep_iff ⟨[(5, Val.dict [("$type", Val.str "app.bsky.feed.post")])]⟩
    "did:plc:me"
    [Val.dict [("subject", Val.dict
      [("uri", Val.str "at://did:plc:me/app.bsky.feed.post/1"), ("cid", Val.cid 5)])]]
    [Val.dict [("subject", Val.dict
      [("uri", Val.str "at://did:plc:me/app.bsky.feed.post/1"), ("cid", Val.cid 5)])]]
    rfl
    (Val.dict [("subject", Val.dict
      [("uri", Val.str "at://did:plc:me/app.bsky.feed.post/1"), ("cid", Val.cid 5)])])

/-- Counterexample to C5 as stated: the subject CID 5 IS present in the
block set (it maps to the empty dict `{}`), the subject URI contains
the account DID, yet the correlator excludes the like, because the code
filters on the truthiness of `archive.blocks.get(...)` and the empty
dict is falsy. -/
theorem claim_C5_counterexample :
    subjectUriHasDid "did:plc:me"
        (Val.dict [("subject", Val.dict
          [("uri", Val.str "at://did:plc:me/app.bsky.feed.post/1"), ("cid", Val.cid 5)])])
      = .ok true
    ∧ (Archive.get ⟨[(5, Val.dict [])]⟩ 5).isSome = true
    ∧ selfLikeRecords ⟨[(5, Val.dict [])]⟩ "did:plc:me"
        [Val.dict [("subject", Val.dict
          [("uri", Val.str "at://did:plc:me/app.bsky.feed.post/1"), ("cid", Val.cid 5)])]]
      = .ok [] :=
  ⟨rfl, rfl, rfl⟩

/-- C9: an indirect like block whose referenced hash is absent from the
block set normalizes to Python `None` (an absent value, not a record);
and whenever some normalized like (such a `None`, or any block whose
`subject` access raises) reaches the correlator's filter, the exception
propagates out of `gather_self_liked_posts` — the whole run fails
rather than silently skipping the dangling record. -/
theorem claim_C9_dangling_reference_fails (a : Archive) (did : String)
    (fetcher : List Val → Except PyErr (List Post)) (now : Int) :
    (∀ (fs gs : List (String × Val)) (rest : List Val) (n : Nat),
       fs.any (fun kv => kv.1 == "$type") = false →
       fs.lookup "e" = some (.list (Val.dict gs :: rest)) →
       gs.lookup "v" = some (.cid n) →
       a.get n = none →
       extract_feed_item a (Val.dict fs) = .ok Val.pynone)
    ∧ (∀ likes : List Val, likesOf a = .ok likes →
       (∃ x ∈ likes, ∃ e0, getItem x "subject" = .error e0) →
       ∃ e, gather_self_liked_posts a did fetcher now = .error e) := by
  constructor
  · intro fs gs rest n hty he hv hget
    simp [extract_feed_item, pyInStr, hty, any_key_of_lookup he, getItem, he,
          pyLen, getIndex, cidDecode, hv, bind, Except.bind, Archive.getVal, hget]
  · rintro likes hlikes ⟨x, hx, e0, he0⟩
    have hp : ∃ e, subjectUriHasDid did x = .error e :=
      ⟨e0, by simp [subjectUriHasDid, bind, Except.bind, he0]⟩
    rcases efilter_error_of_mem _ likes x hx hp with ⟨e1, he1⟩
    refine ⟨e1, ?_⟩
    unfold gather_self_liked_posts selfLikeRecords
    simp [bind, Except.bind, hlikes, he1]

/-- Witness for C9: a one-block archive holding an indirect like whose
`v` hash (99) is absent.  Normalization yields `None`, and the whole
correlator run fails with a `TypeError` at the subject access. -/
theorem claim_C9_dangling_reference_fails_witness :
    extract_feed_item
        ⟨[(1, Val.dict [("e", Val.list
            [Val.dict [("v", Val.cid 99), ("k", Val.str "app.bsky.feed.like")]])])]⟩
        (Val.dict [("e", Val.list
            [Val.dict [("v", Val.cid 99), ("k", Val.str "app.bsky.feed.like")]])])
      = .ok Val.pynone
    ∧ ∃ e, gather_self_liked_posts
        ⟨[(1, Val.dict [("e", Val.list
            [Val.dict [("v", Val.cid 99), ("k", Val.str "app.bsky.feed.like")]])])]⟩
        "did:plc:me" (fun _ => .ok []) 0
      = .error e :=
  ⟨(claim_C9_dangling_reference_fails
      ⟨[(1, Val.dict [("e", Val.list
          [Val.dict [("v", Val.cid 99), ("k", Val.str "app.bsky.feed.like")]])])]⟩
      "did:plc:me" (fun _ => .ok []) 0).1
    [("e", Val.list [Val.dict [("v", Val.cid 99), ("k", Val.str "app.bsky.feed.like")]])]
    [("v", Val.cid 99), ("k", Val.str "app.bsky.feed.like")] [] 99 rfl rfl rfl rfl,
   (claim_C9_dangling_reference_fails
      ⟨[(1, Val.dict [("e", Val.list
          [Val.dict [("v", Val.cid 99), ("k", Val.str "app.bsky.feed.like")]])])]⟩
      "did:plc:me" (fun _ => .ok []) 0).2
    [Val.pynone] rfl ⟨Val.pynone, by simp, PyErr.typeError, rfl⟩⟩

/-- C1: every post in the to-delete set satisfies all three qualifying
conditions — its author DID equals the account DID, it is strictly
older than the 3-day threshold (which entails that its creation time
was found and parsed: an undetermined or unparseable creation time
keeps a post out of the set), and, provided the post-fetch collaborator
only returns posts at requested URIs, it is the target of one of the
account's surviving self-like records. -/
theorem claim_C1_to_delete_invariant (a : Archive) (did : String)
    (fetcher : List Val → Except PyErr (List Post)) (now : Int)
    (res : List Post) (logs : List String) (p : Post)
    (hg : gather_self_liked_posts a did fetcher now = .ok (res, logs))
    (hp : p ∈ res)
    (hf : ∀ uris posts, fetcher uris = .ok posts → ∀ q ∈ posts, Val.str q.uri ∈ uris) :
    p.author_did = did
    ∧ is_older_than_days now p 3 = true
    ∧ (∃ c dt, createdOf p.record = some c ∧ parseCreated c = some dt)
    ∧ (∃ likes slr, likesOf a = .ok likes
        ∧ selfLikeRecords a did likes = .ok slr
        ∧ ∃ x ∈ slr, subjectUriOf x = .ok (Val.str p.uri)) := by
  unfold gather_self_liked_posts at hg
  cases h1 : likesOf a with
  | error e => rw [h1] at hg; exact absurd hg (by simp [bind, Except.bind])
  | ok likes =>
    rw [h1] at hg
    simp only [bind, Except.bind] at hg
    cases h2 : selfLikeRecords a did likes with
    | error e => rw [h2] at hg; exact absurd hg (by simp)
    | ok slr =>
      rw [h2] at hg
      simp only [Except.ok.injEq] at hg
      have hres : res = (processBatches fetcher did now (chunker slr 25)).1 := by
        rw [hg]
      rw [hres] at hp
      rcases processBatches_mem fetcher did now (chunker slr 25) p hp
        with ⟨batch, hbatch, posts, hfb, hq⟩
      rcases List.mem_filter.mp hq with ⟨hmem, hcond⟩
      rw [Bool.and_eq_true] at hcond
      rcases hcond with ⟨hauth, hold⟩
      have hauthor : p.author_did = did := eq_of_beq hauth
      refine ⟨hauthor, hold, is_older_implies_parse now p 3 hold, likes, slr, rfl, h2, ?_⟩
      unfold fetchBatch at hfb
      cases h3 : batchUris batch with
      | error e => rw [h3] at hfb; exact absurd hfb (by simp [bind, Except.bind])
      | ok uris =>
        rw [h3] at hfb
        simp only [bind, Except.bind] at hfb
        have huri : Val.str p.uri ∈ uris := hf uris posts hfb p hmem
        rcases emap_ok_mem subjectUriOf batch uris h3 (Val.str p.uri) huri
          with ⟨x, hxb, hxok⟩
        exact ⟨x, chunker_mem slr 25 batch hbatch x hxb, hxok⟩

/-- Concrete account DID for the C1 scenario. -/
def c1Did : String := "did:plc:me"

/-- Concrete post URI for the C1 scenario. -/
def c1Uri : String := "at://did:plc:me/app.bsky.feed.post/1"

/-- The post the fetcher returns for a requested URI in the C1
scenario: authored by the account, created 2020-01-01. -/
def c1PostAt (s : String) : Post :=
  ⟨s, c1Did, ⟨some (.str "2020-01-01T00:00:00Z"), none⟩, none⟩

/-- The like block of the C1 scenario: a direct (`$type`-tagged) like
record whose subject is the account's own post. -/
def c1Like : Val :=
  Val.dict [("$type", Val.str "app.bsky.feed.like"),
            ("subject", Val.dict [("uri", Val.str c1Uri), ("cid", Val.cid 2)])]

/-- The archive of the C1 scenario: the like record and the liked post
record. -/
def c1Archive : Archive :=
  ⟨[(1, c1Like), (2, Val.dict [("$type", Val.str "app.bsky.feed.post"),
                               ("text", Val.str "hello")])]⟩

/-- The C1 scenario's post-fetch collaborator: returns one post per
requested string URI, echoing the URI back. -/
def c1Fetcher (uris : List Val) : Except PyErr (List Post) :=
  .ok (uris.filterMap (fun u => match u with
    | .str s => some (c1PostAt s)
    | _ => none))

/-- The instant `now` of the C1 scenario: 2020-02-01 UTC, 31 days after creation. -/
def c1Now : Int := (ymdToOrdinal 2020 2 1 : Int) * 86400000000

/-- Witness for C1: the full pipeline on the concrete scenario puts
exactly the self-liked month-old post in the to-delete set, and the
invariant holds for it. -/
theorem claim_C1_to_delete_invariant_witness :
    (c1PostAt c1Uri).author_did = c1Did
    ∧ is_older_than_days c1Now (c1PostAt c1Uri) 3 = true
    ∧ (∃ c dt, createdOf (c1PostAt c1Uri).record = some c ∧ parseCreated c = some dt)
    ∧ (∃ likes slr, likesOf c1Archive = .ok likes
        ∧ selfLikeRecords c1Archive c1Did likes = .ok slr
        ∧ ∃ x ∈ slr, subjectUriOf x = .ok (Val.str (c1PostAt c1Uri).uri)) := by
  have hf : ∀ uris posts, c1Fetcher uris = .ok posts → ∀ q ∈ posts, Val.str q.uri ∈ uris := by
    intro uris posts h q hq
    simp only [c1Fetcher] at h
    injection h with h
    subst h
    rcases List.mem_filterMap.mp hq with ⟨u, hu, hmu⟩
    cases u with
    | str s =>
      simp only at hmu
      injection hmu with hmu
      subst hmu
      exact hu
    | pynone => simp at hmu
    | num n => simp at hmu
    | cid c => simp at hmu
    | dict fs => simp at hmu
    | list es => simp at hmu
  exact claim_C1_to_delete_invariant c1Archive c1Did c1Fetcher c1Now
    [c1PostAt c1Uri] [] (c1PostAt c1Uri) rfl (by simp) hf
